import Mathlib

/-!
Verification of the tiered-pricing and quote-total computation core of the
khlaser quotation system (a browser price-quoting tool for laser machines).

The computational core lives in two JavaScript files:
* `utils.js` — the standalone tier resolver `calculatePriceByTier`;
* `assets/js/app.js` — the application module `appModule` holding the input
  state, the quote calculator `calculatePrice`, the input-event coercions,
  and the history operations.

The embedding below translates those functions directly.  JavaScript values
that may be non-numeric (`parseInt`/`parseFloat` returning `NaN`) are
modelled as `Option` (with `none` for the non-numeric case); quantities are
`Int` and monetary amounts are `ℚ`.  DOM rendering, notifications and
local-storage access are out of scope (pure view glue); where a function
reads stored history on startup we model the documented missing-key default
(the empty list).
-/

namespace Quotation

/-- A price tier from the machine data: `{min, max, price}`, with `max = none`
modelling the JavaScript `null` (unbounded tier). -/
structure PriceTier where
  min : Int
  max : Option Int
  price : ℚ
deriving DecidableEq, Repr

/-- A machine record from `appModule.defaultMachines` (the fields the
computation reads; packing data is carried verbatim from the source). -/
structure Machine where
  id : String
  series : String
  model : String
  power : String
  priceTiers : List PriceTier
deriving DecidableEq, Repr

/-- A flat-priced product (water cooler, accessory, other accessory):
`{id, name, price}`. -/
structure SimpleProduct where
  id : String
  name : String
  price : ℚ
deriving DecidableEq, Repr

/-- A history record as built by `appModule.addHistory`:
`{id, date, total, details}` (all display strings). -/
structure HistoryItem where
  id : String
  date : String
  total : String
  details : String
deriving DecidableEq, Repr

/-- The mutable fields of `appModule` that the modelled computations read and
write (`initDefaultData` / the input listeners); UI-only fields (country,
priceSource, templates) are omitted. -/
structure AppState where
  exchangeRate : ℚ
  quantity : Int
  internationalShipping : ℚ
  domesticShipping : ℚ
  otherFees : ℚ
  selectedMachine : Option Machine
  selectedWaterCooler : Option String
  selectedAccessories : List String
  selectedOtherAccessories : List String
  history : List HistoryItem
deriving DecidableEq, Repr

/-- The itemized result of one run of `appModule.calculatePrice`: the payload
passed to `updatePriceDetails` plus the two totals passed to
`updatePriceDisplay`. -/
structure Breakdown where
  machinePrice : ℚ
  waterCoolerPrice : ℚ
  accessoriesPrice : ℚ
  otherAccessoriesPrice : ℚ
  internationalShipping : ℚ
  domesticShipping : ℚ
  otherFees : ℚ
  quantity : Int
  totalPrice : ℚ
  usdPrice : ℚ
deriving DecidableEq, Repr

/-- The tier-match test from the source, used identically in
`utils.calculatePriceByTier` and in the inline lookup of
`appModule.calculatePrice`:
`quantity >= tier.min && (tier.max === null || quantity <= tier.max)`. -/
def tierMatches (quantity : Int) (tier : PriceTier) : Bool :=
  decide (tier.min ≤ quantity) &&
    (match tier.max with
     | none => true
     | some m => decide (quantity ≤ m))

/-- Models `parseInt(quantity) || 1`: a non-numeric value (`NaN`, modelled as
`none`) or `0` is replaced by `1`; every other integer — including negative
ones, which are truthy in JavaScript — passes through unchanged. -/
def coerceQuantity (value : Option Int) : Int :=
  match value with
  | none => 1
  | some n => if n = 0 then 1 else n

/-- Placeholder tier used only to give `List.headD`/`List.getLastD` a default;
the source never evaluates the corresponding JavaScript expression on an
empty list in the branches where we use it (see the individual theorems). -/
def junkTier : PriceTier := { min := 1, max := none, price := 0 }

/-- Direct translation of `utils.calculatePriceByTier` (utils.js):
non-array (`none`) or empty tier list returns 0; otherwise the quantity is
coerced by `parseInt(q) || 1`, the tiers are scanned in order for the first
match, and if none matches the last tier price is returned. -/
def calculatePriceByTier (quantity : Option Int) (priceTiers : Option (List PriceTier)) : ℚ :=
  match priceTiers with
  | none => 0
  | some tiers =>
    if tiers.isEmpty then 0
    else
      let q := coerceQuantity quantity
      match tiers.find? (tierMatches q) with
      | some tier => tier.price
      | none => (tiers.getLastD junkTier).price

/-- The inline tier lookup of `appModule.calculatePrice` (app.js):
`tiers.find(match)?.price || tiers[0].price`.  In JavaScript a missing match
yields `undefined` and a matched price of `0` is falsy, so both fall back to
the FIRST tier's price.  On an empty list the JavaScript would throw
(`tiers[0]` is `undefined`); we use `headD junkTier` and restrict theorems
to non-empty lists where it matters. -/
def inlineTierPrice (quantity : Int) (tiers : List PriceTier) : ℚ :=
  match tiers.find? (tierMatches quantity) with
  | some tier =>
      if tier.price = 0 then (tiers.headD junkTier).price else tier.price
  | none => (tiers.headD junkTier).price

/-- `appModule.defaultWaterCoolers` from app.js. -/
def defaultWaterCoolers : List SimpleProduct :=
  [ { id := "water-cooler-50w", name := "50W cooler", price := 800 },
    { id := "water-cooler-80w", name := "80W cooler", price := 1000 },
    { id := "water-cooler-100w", name := "100W cooler", price := 1200 } ]

/-- `appModule.defaultAccessories` from app.js. -/
def defaultAccessories : List SimpleProduct :=
  [ { id := "accessory-laser-tube", name := "laser tube", price := 1500 },
    { id := "accessory-mirror", name := "mirror", price := 200 },
    { id := "accessory-lens", name := "lens", price := 150 },
    { id := "accessory-power-supply", name := "power supply", price := 800 } ]

/-- `appModule.defaultOtherAccessories` from app.js. -/
def defaultOtherAccessories : List SimpleProduct :=
  [ { id := "other-accessory-chiller", name := "chiller", price := 2000 },
    { id := "other-accessory-exhaust-fan", name := "exhaust fan", price := 300 },
    { id := "other-accessory-air-compressor", name := "air compressor", price := 1500 },
    { id := "other-accessory-software", name := "software", price := 1000 },
    { id := "other-accessory-training", name := "training", price := 500 },
    { id := "other-accessory-warranty", name := "warranty", price := 800 } ]

/-- First machine of `appModule.defaultMachines` (kh-1390-50w), kept as data
for concrete evaluations. -/
def kh1390_50w : Machine :=
  { id := "kh-1390-50w", series := "KH-1390", model := "1390", power := "50W",
    priceTiers :=
      [ { min := 1, max := some 9, price := 10000 },
        { min := 10, max := some 99, price := 9500 },
        { min := 100, max := none, price := 9000 } ] }

/-- Direct translation of `appModule.calculatePrice` (app.js).  The machine
branch repeats the inline lookup expression literally (see
`inlineTierPrice`); water-cooler, accessory and other-accessory prices are
looked up in the default tables by id, exactly as the source's `find` and
`forEach` accumulation do. -/
def calculatePrice (s : AppState) : Breakdown :=
  let machinePrice : ℚ :=
    match s.selectedMachine with
    | none => 0
    | some m =>
      let price :=
        match m.priceTiers.find? (tierMatches s.quantity) with
        | some tier =>
            if tier.price = 0 then (m.priceTiers.headD junkTier).price else tier.price
        | none => (m.priceTiers.headD junkTier).price
      price * (s.quantity : ℚ)
  let waterCoolerPrice : ℚ :=
    match s.selectedWaterCooler with
    | none => 0
    | some wcId =>
      match defaultWaterCoolers.find? (fun wc => wc.id = wcId) with
      | some wc => wc.price * (s.quantity : ℚ)
      | none => 0
  let accessoriesPrice : ℚ :=
    s.selectedAccessories.foldl
      (fun acc accessoryId =>
        match defaultAccessories.find? (fun a => a.id = accessoryId) with
        | some a => acc + a.price
        | none => acc) 0
  let otherAccessoriesPrice : ℚ :=
    s.selectedOtherAccessories.foldl
      (fun acc accessoryId =>
        match defaultOtherAccessories.find? (fun a => a.id = accessoryId) with
        | some a => acc + a.price
        | none => acc) 0
  let totalPrice : ℚ :=
    machinePrice + waterCoolerPrice + accessoriesPrice + otherAccessoriesPrice +
      s.internationalShipping + s.domesticShipping + s.otherFees
  let usdPrice : ℚ := totalPrice / s.exchangeRate
  { machinePrice := machinePrice
    waterCoolerPrice := waterCoolerPrice
    accessoriesPrice := accessoriesPrice
    otherAccessoriesPrice := otherAccessoriesPrice
    internationalShipping := s.internationalShipping
    domesticShipping := s.domesticShipping
    otherFees := s.otherFees
    quantity := s.quantity
    totalPrice := totalPrice
    usdPrice := usdPrice }

/-- The exchange-rate input listener of `appModule.initEventListeners`:
`this.exchangeRate = parseFloat(e.target.value) || 6.5`.  A non-numeric value
(`NaN`, modelled `none`) or `0` is falsy and replaced by the default `6.5`;
any other value — including negative ones — is stored unchanged. -/
def setExchangeRate (value : Option ℚ) (s : AppState) : AppState :=
  { s with exchangeRate :=
      match value with
      | none => (6.5 : ℚ)
      | some r => if r = 0 then (6.5 : ℚ) else r }

/-- The quantity input listener of `appModule.initEventListeners`:
`this.quantity = parseInt(e.target.value) || 1`. -/
def setQuantity (value : Option Int) (s : AppState) : AppState :=
  { s with quantity := coerceQuantity value }

/-- `appModule.addHistory` (app.js): returns unchanged when no machine is
selected; otherwise builds a history item and `unshift`s it onto the front
of `this.history`.  The item's id/date/total/details strings come from
clock- and render-dependent helpers, so the constructed item is taken as a
parameter. -/
def addHistory (s : AppState) (item : HistoryItem) : AppState :=
  match s.selectedMachine with
  | none => s
  | some _ => { s with history := item :: s.history }

/-- `appModule.clearHistory` (app.js): resets the history to the empty
list. -/
def clearHistory (s : AppState) : AppState :=
  { s with history := [] }

/-- The state after `appModule.initDefaultData` with no stored history or
templates (the documented missing-key default of the local-storage reader is
the empty list). -/
def initState : AppState :=
  { exchangeRate := (6.5 : ℚ)
    quantity := 1
    internationalShipping := 0
    domesticShipping := 0
    otherFees := 0
    selectedMachine := none
    selectedWaterCooler := none
    selectedAccessories := []
    selectedOtherAccessories := []
    history := [] }

/-- Well-formedness of a tier table in the sense of the data model: the list
is non-empty, every tier starts at a quantity of at least 1, each bounded
tier has `min ≤ max` and is immediately followed by a tier starting at
`max + 1` (no gaps, no overlaps), and the final tier is unbounded. -/
def wellFormed : List PriceTier → Bool
  | [] => false
  | [t] => decide (1 ≤ t.min) && t.max == none
  | t :: t' :: rest =>
      decide (1 ≤ t.min) &&
        (match t.max with
         | some m => decide (t.min ≤ m) && t'.min == m + 1
         | none => false) &&
      wellFormed (t' :: rest)

/-- A deliberately gapped tier table ([1,9] then [20,∞), nothing covers
10–19) used to exercise the fallback branches. -/
def gapTiers : List PriceTier :=
  [ { min := 1, max := some 9, price := 10 },
    { min := 20, max := none, price := 5 } ]

/-- Flat price of a product id in one of the default tables: the price of the
first entry whose id matches, or 0 when the id is unknown (the source's
`find` followed by a guarded accumulation). -/
def flatPriceIn (table : List SimpleProduct) (productId : String) : ℚ :=
  match table.find? (fun a => a.id = productId) with
  | some a => a.price
  | none => 0

/-- A tier table whose first tier covers non-positive quantities, used to
show that negative quantities are not coerced away. -/
def negDemoTiers : List PriceTier :=
  [ { min := -10, max := some 0, price := 99 },
    { min := 1, max := none, price := 10 } ]

/-- A concrete history record for evaluations. -/
def demoEntry1 : HistoryItem :=
  { id := "id-1", date := "2024-01-01 10:00:00", total := "10000.00",
    details := "KH-1390 1390 50W x 1" }

/-- A second concrete history record for evaluations. -/
def demoEntry2 : HistoryItem :=
  { id := "id-2", date := "2024-01-02 11:30:00", total := "12650.00",
    details := "KH-1390 1390 50W x 1" }

/-- A state with a machine selected and one stored history record. -/
def demoState : AppState :=
  { initState with selectedMachine := some kh1390_50w, history := [demoEntry1] }

/-- Scanning a list whose head satisfies the predicate stops at the head. -/
lemma find?_cons_true {p : PriceTier → Bool} {a : PriceTier} {l : List PriceTier}
    (h : p a = true) : List.find? p (a :: l) = some a := by
  simp [List.find?, h]

/-- Scanning a list whose head fails the predicate continues with the tail. -/
lemma find?_cons_false {p : PriceTier → Bool} {a : PriceTier} {l : List PriceTier}
    (h : p a = false) : List.find? p (a :: l) = List.find? p l := by
  simp [List.find?, h]

/-- A matching tier bounds the quantity from below by its `min`. -/
lemma min_le_of_tierMatches {q : Int} {t : PriceTier} (h : tierMatches q t = true) :
    t.min ≤ q := by
  simp only [tierMatches, Bool.and_eq_true, decide_eq_true_eq] at h
  exact h.1

/-- A bounded tier does not match a quantity above its `max`. -/
lemma tierMatches_false_of_gt {q : Int} {t : PriceTier} {m : Int}
    (hmax : t.max = some m) (hgt : ¬ q ≤ m) : tierMatches q t = false := by
  simp [tierMatches, hmax, hgt]

/-- Unfolding of `wellFormed` on a list of at least two tiers. -/
lemma wellFormed_step (t0 t1 : PriceTier) (rest : List PriceTier)
    (h : wellFormed (t0 :: t1 :: rest) = true) :
    ∃ m, t0.max = some m ∧ t0.min ≤ m ∧ t1.min = m + 1 := by
  cases hmax : t0.max with
  | none => simp [wellFormed, hmax] at h
  | some m =>
    simp only [wellFormed, hmax, Bool.and_eq_true, decide_eq_true_eq, beq_iff_eq] at h
    exact ⟨m, rfl, h.1.2.1, h.1.2.2⟩

/-- A well-formed table stays well formed after dropping its first tier. -/
lemma wellFormed_tail (t0 t1 : PriceTier) (rest : List PriceTier)
    (h : wellFormed (t0 :: t1 :: rest) = true) : wellFormed (t1 :: rest) = true := by
  cases hmax : t0.max with
  | none => simp [wellFormed, hmax] at h
  | some m =>
    simp only [wellFormed, hmax, Bool.and_eq_true, decide_eq_true_eq, beq_iff_eq] at h
    exact h.2

/-- The first tier of a well-formed table starts at 1 or above. -/
lemma wellFormed_head_min (t0 : PriceTier) (rest : List PriceTier)
    (h : wellFormed (t0 :: rest) = true) : 1 ≤ t0.min := by
  cases rest with
  | nil =>
    simp only [wellFormed, Bool.and_eq_true, decide_eq_true_eq] at h
    exact h.1
  | cons t1 rest =>
    simp only [wellFormed, Bool.and_eq_true, decide_eq_true_eq] at h
    exact h.1.1

/-- In a well-formed table every tier starts at or above the first tier. -/
lemma wellFormed_min_mono (t0 : PriceTier) (rest : List PriceTier)
    (h : wellFormed (t0 :: rest) = true) :
    ∀ t ∈ t0 :: rest, t0.min ≤ t.min := by
  induction rest generalizing t0 with
  | nil =>
    intro t ht
    rw [List.mem_singleton] at ht
    subst ht
    exact le_refl _
  | cons t1 rest ih =>
    intro t ht
    obtain ⟨m, hmax, hle, hnext⟩ := wellFormed_step t0 t1 rest h
    rcases List.mem_cons.mp ht with rfl | hmem
    · exact le_refl _
    · have h1 := ih t1 (wellFormed_tail t0 t1 rest h) t hmem
      omega

/-- Every tier of a well-formed table starts at 1 or above. -/
lemma wellFormed_all_min (tiers : List PriceTier) (h : wellFormed tiers = true) :
    ∀ t ∈ tiers, 1 ≤ t.min := by
  cases tiers with
  | nil => simp [wellFormed] at h
  | cons t0 rest =>
    intro t ht
    have h1 := wellFormed_head_min t0 rest h
    have h2 := wellFormed_min_mono t0 rest h t ht
    omega

/-- In a well-formed table the in-order scan stops exactly at any tier that
matches the quantity (no earlier tier can match). -/
lemma wellFormed_find (q : Int) (t : PriceTier) :
    ∀ (tiers : List PriceTier), wellFormed tiers = true → t ∈ tiers →
      tierMatches q t = true → tiers.find? (tierMatches q) = some t := by
  intro tiers
  induction tiers with
  | nil => intro _ hmem _; simp at hmem
  | cons t0 rest ih =>
    intro h hmem hmatch
    rcases List.mem_cons.mp hmem with rfl | hmem
    · exact find?_cons_true hmatch
    · cases rest with
      | nil => simp at hmem
      | cons t1 rest =>
        obtain ⟨m, hmax, hle, hnext⟩ := wellFormed_step t0 t1 rest h
        have htail : wellFormed (t1 :: rest) = true := wellFormed_tail t0 t1 rest h
        have hmin : t1.min ≤ t.min := wellFormed_min_mono t1 rest htail t hmem
        have hminq : t.min ≤ q := min_le_of_tierMatches hmatch
        have hgt : ¬ q ≤ m := by omega
        rw [find?_cons_false (tierMatches_false_of_gt hmax hgt)]
        exact ih htail hmem hmatch

/-- On a non-empty tier list and a nonzero quantity, `calculatePriceByTier`
reduces to the in-order scan with last-tier fallback. -/
lemma calculatePriceByTier_pos (q : Int) (hq : q ≠ 0) (t0 : PriceTier)
    (rest : List PriceTier) :
    calculatePriceByTier (some q) (some (t0 :: rest)) =
      match (t0 :: rest).find? (tierMatches q) with
      | some tier => tier.price
      | none => ((t0 :: rest).getLastD junkTier).price := by
  simp [calculatePriceByTier, coerceQuantity, hq]

/-- A `foldl` that adds the table price of each found id equals the sum of
the per-id flat prices. -/
lemma foldl_flatPrice (table : List SimpleProduct) :
    ∀ (ids : List String) (init : ℚ),
      ids.foldl
        (fun acc productId =>
          match table.find? (fun a => a.id = productId) with
          | some a => acc + a.price
          | none => acc) init
        = init + (ids.map (flatPriceIn table)).sum := by
  intro ids
  induction ids with
  | nil => intro init; simp
  | cons pid rest ih =>
    intro init
    rw [List.foldl_cons, ih, List.map_cons, List.sum_cons, flatPriceIn]
    cases h : table.find? (fun a => a.id = pid) with
    | none => simp [h]
    | some a =>
      simp only [h]
      ring

/-- C1: for every quantity ≥ 1 (the documented input domain; the resolver
coerces 0 and non-numeric values to 1, see `coerceQuantity`) and every
non-empty tier list in which no tier matches the quantity, the standalone
tier resolver `calculatePriceByTier` returns the price of the LAST tier —
the deliberate catch-all fallback, not an error and not the first tier. -/
theorem resolvePrice_fallback_last (q : Int) (tiers : List PriceTier)
    (hq : 1 ≤ q) (hne : tiers ≠ [])
    (hnomatch : ∀ t ∈ tiers, tierMatches q t = false) :
    calculatePriceByTier (some q) (some tiers) = (tiers.getLastD junkTier).price := by
  cases tiers with
  | nil => exact absurd rfl hne
  | cons t0 rest =>
    have hq0 : q ≠ 0 := by omega
    rw [calculatePriceByTier_pos q hq0 t0 rest]
    have hfind : (t0 :: rest).find? (tierMatches q) = none :=
      List.find?_eq_none.mpr (fun t ht => by simp [hnomatch t ht])
    rw [hfind]

/-- Witness for C1: in the gapped table ([1,9]→10, [20,∞)→5) the quantity 15
matches no tier and the resolver yields 5, the last tier price (the first
tier price is 10). -/
theorem resolvePrice_fallback_last_witness :
    calculatePriceByTier (some 15) (some gapTiers) = 5 :=
  resolvePrice_fallback_last 15 gapTiers (by decide) (by decide) (by decide)

/-- C2: for every input state, the local-currency grand total computed by
`calculatePrice` is exactly the sum of the machine, water-cooler,
accessories and other-accessories prices, the shipping total (international
plus domestic) and the other fees — no hidden terms. -/
theorem calculate_total_additive (s : AppState) :
    (calculatePrice s).totalPrice =
      (calculatePrice s).machinePrice + (calculatePrice s).waterCoolerPrice +
        (calculatePrice s).accessoriesPrice + (calculatePrice s).otherAccessoriesPrice +
        ((calculatePrice s).internationalShipping + (calculatePrice s).domesticShipping) +
        (calculatePrice s).otherFees := by
  simp only [calculatePrice]
  ring

/-- C3: for every input state, the machine price is the inline-resolved tier
unit price times the quantity (0 when no machine is selected), the
water-cooler price is the selected cooler price times the quantity (0 when
none is selected or the id is unknown), and the two accessory totals are the
plain sums of the selected items flat prices, not scaled by the quantity. -/
theorem calculate_components (s : AppState) :
    (calculatePrice s).machinePrice =
        (match s.selectedMachine with
         | none => 0
         | some m => inlineTierPrice s.quantity m.priceTiers * (s.quantity : ℚ)) ∧
      (calculatePrice s).waterCoolerPrice =
        (match s.selectedWaterCooler with
         | none => 0
         | some wcId =>
           match defaultWaterCoolers.find? (fun wc => wc.id = wcId) with
           | some wc => wc.price * (s.quantity : ℚ)
           | none => 0) ∧
      (calculatePrice s).accessoriesPrice =
        (s.selectedAccessories.map (flatPriceIn defaultAccessories)).sum ∧
      (calculatePrice s).otherAccessoriesPrice =
        (s.selectedOtherAccessories.map (flatPriceIn defaultOtherAccessories)).sum := by
  refine ⟨?_, ?_, ?_, ?_⟩
  · simp only [calculatePrice, inlineTierPrice]
  · simp only [calculatePrice]
  · simp only [calculatePrice, foldl_flatPrice, zero_add]
  · simp only [calculatePrice, foldl_flatPrice, zero_add]

/-- C4: in a well-formed (gapless, non-overlapping, starting at 1) tier
table, every quantity inside a tier matching range resolves — by the
in-order scan stopping at the first match — to exactly that tier price. -/
theorem resolvePrice_wellFormed_tier (q : Int) (tiers : List PriceTier) (t : PriceTier)
    (hwf : wellFormed tiers = true) (hmem : t ∈ tiers) (hmatch : tierMatches q t = true) :
    tiers.find? (tierMatches q) = some t ∧
      calculatePriceByTier (some q) (some tiers) = t.price := by
  have hfind := wellFormed_find q t tiers hwf hmem hmatch
  refine ⟨hfind, ?_⟩
  have hmin : 1 ≤ t.min := wellFormed_all_min tiers hwf t hmem
  have hq : t.min ≤ q := min_le_of_tierMatches hmatch
  cases tiers with
  | nil => simp at hmem
  | cons t0 rest =>
    have hq0 : q ≠ 0 := by omega
    rw [calculatePriceByTier_pos q hq0 t0 rest, hfind]

/-- Witness for C4: in the kh-1390-50w table the quantity 50 lies in the
middle tier [10,99] and resolves to 9500 (the spec scenario). -/
theorem resolvePrice_wellFormed_tier_witness :
    calculatePriceByTier (some 50) (some kh1390_50w.priceTiers) = 9500 :=
  (resolvePrice_wellFormed_tier 50 kh1390_50w.priceTiers
    { min := 10, max := some 99, price := 9500 }
    (by decide) (by decide) (by decide)).2

/-- C5 counterexample: a supplied exchange rate of −2 is stored unchanged by
the exchange-rate listener (`parseFloat(v) || 6.5` only replaces falsy
values, i.e. 0 and NaN), so a non-positive supplied rate is NOT always
replaced by the default 6.5. -/
theorem exchangeRate_negative_counterexample :
    (setExchangeRate (some (-2)) initState).exchangeRate = -2 ∧
      ¬ (setExchangeRate (some (-2)) initState).exchangeRate = (6.5 : ℚ) := by
  constructor
  · norm_num [setExchangeRate]
  · norm_num [setExchangeRate]

/-- C5 amended: a supplied exchange rate of 0 or a non-numeric one is
replaced by the default 6.5, and the stored rate is never 0 (so the
foreign-currency division never divides by zero); but any nonzero supplied
value — including negative ones — is stored unchanged. -/
theorem exchangeRate_coercion (s : AppState) :
    (setExchangeRate none s).exchangeRate = (6.5 : ℚ) ∧
      (setExchangeRate (some 0) s).exchangeRate = (6.5 : ℚ) ∧
      (∀ r : ℚ, r ≠ 0 → (setExchangeRate (some r) s).exchangeRate = r) ∧
      (∀ v : Option ℚ, (setExchangeRate v s).exchangeRate ≠ 0) := by
  refine ⟨rfl, by norm_num [setExchangeRate], ?_, ?_⟩
  · intro r hr
    simp [setExchangeRate, hr]
  · intro v
    cases v with
    | none => norm_num [setExchangeRate]
    | some r =>
      by_cases hr : r = 0
      · subst hr; norm_num [setExchangeRate]
      · simp [setExchangeRate, hr]

/-- Witness for C5 amended: a supplied rate of 2 is stored as 2. -/
theorem exchangeRate_coercion_witness :
    (setExchangeRate (some 2) initState).exchangeRate = 2 :=
  (exchangeRate_coercion initState).2.2.1 2 (by norm_num)

/-- C6 counterexample: the quantity coercion `parseInt(v) || 1` leaves the
negative value −3 unchanged (it is truthy in JavaScript), so the quantity
used is NOT always ≥ 1; fed to the resolver with a table whose first tier
covers non-positive quantities it selects that tier (price 99) instead of
any tier a quantity ≥ 1 could select. -/
theorem quantity_coercion_counterexample :
    coerceQuantity (some (-3)) = -3 ∧ ¬ (1 ≤ coerceQuantity (some (-3))) ∧
      calculatePriceByTier (some (-3)) (some negDemoTiers) = 99 := by
  decide

/-- C6 amended: a supplied quantity of 0 or a non-numeric one is treated as
1 (by the resolver and by the quantity listener alike, both of which apply
`parseInt(v) || 1`); every other integer — including negative ones — is used
unchanged, so the used quantity is not guaranteed to be ≥ 1. -/
theorem quantity_coercion (s : AppState) (v : Option Int) :
    (setQuantity v s).quantity = coerceQuantity v ∧
      coerceQuantity none = 1 ∧ coerceQuantity (some 0) = 1 ∧
      (∀ n : Int, n ≠ 0 → coerceQuantity (some n) = n) := by
  refine ⟨rfl, rfl, rfl, ?_⟩
  intro n hn
  simp [coerceQuantity, hn]

/-- Witness for C6 amended: a supplied quantity of 7 is stored as 7. -/
theorem quantity_coercion_witness :
    (setQuantity (some 7) initState).quantity = 7 := by
  have h := quantity_coercion initState (some 7)
  rw [h.1]
  exact h.2.2.2 7 (by decide)

/-- C7: for every input state whose exchange rate is nonzero (the stored
rate always is, see `exchangeRate_coercion`), the foreign-currency total is
exactly the local total divided by the rate, and multiplying back by the
rate recovers the local total exactly in unrounded arithmetic. -/
theorem usd_conversion (s : AppState) (h : s.exchangeRate ≠ 0) :
    (calculatePrice s).usdPrice = (calculatePrice s).totalPrice / s.exchangeRate ∧
      (calculatePrice s).usdPrice * s.exchangeRate = (calculatePrice s).totalPrice := by
  have hdef : (calculatePrice s).usdPrice = (calculatePrice s).totalPrice / s.exchangeRate := rfl
  exact ⟨hdef, by rw [hdef, div_mul_cancel₀ _ h]⟩

/-- Witness for C7: at the initial state (rate 6.5) the product of the
foreign total and the rate equals the local total. -/
theorem usd_conversion_witness :
    (calculatePrice initState).usdPrice * initState.exchangeRate =
      (calculatePrice initState).totalPrice :=
  (usd_conversion initState (by norm_num [initState])).2

/-- C8: whenever a machine is selected (the only case in which
`addHistory` records anything), the new entry is prepended at the front of
the history list — newest-first, no deduplication, the old entries kept in
order. -/
theorem addHistory_prepends (s : AppState) (item : HistoryItem)
    (h : s.selectedMachine ≠ none) :
    (addHistory s item).history = item :: s.history := by
  cases hm : s.selectedMachine with
  | none => exact absurd hm h
  | some m => simp [addHistory, hm]

/-- Witness for C8: appending a second record to a one-record history yields
the two records newest first. -/
theorem addHistory_prepends_witness :
    (addHistory demoState demoEntry2).history = [demoEntry2, demoEntry1] :=
  addHistory_prepends demoState demoEntry2 (by decide)

/-- C9 counterexample: on the gapped table the standalone resolver
`utils.calculatePriceByTier` falls back to the LAST tier price (5) while the
inline lookup of `appModule.calculatePrice` falls back to the FIRST tier
price (10), so the two do not agree on every quantity and non-empty tier
list. -/
theorem resolver_equivalence_counterexample :
    calculatePriceByTier (some 15) (some gapTiers) ≠ inlineTierPrice 15 gapTiers := by
  decide

/-- C9 amended: the standalone resolver and the inline lookup return the
same unit price whenever the quantity is ≥ 1 and some tier matches it with a
nonzero price; they diverge exactly on the fallback paths (no matching tier:
last versus first tier price) and on a matched price of 0 (falsy in the
inline `|| tiers[0].price`). -/
theorem resolver_agreement (q : Int) (tiers : List PriceTier) (t : PriceTier)
    (hq : 1 ≤ q) (hfind : tiers.find? (tierMatches q) = some t) (hp : t.price ≠ 0) :
    calculatePriceByTier (some q) (some tiers) = inlineTierPrice q tiers := by
  cases tiers with
  | nil => simp at hfind
  | cons t0 rest =>
    have hq0 : q ≠ 0 := by omega
    rw [calculatePriceByTier_pos q hq0 t0 rest, inlineTierPrice, hfind]
    simp [hp]

/-- Witness for C9 amended: at quantity 5 on the kh-1390-50w table both
lookups return the first tier price 10000. -/
theorem resolver_agreement_witness :
    calculatePriceByTier (some 5) (some kh1390_50w.priceTiers) =
      inlineTierPrice 5 kh1390_50w.priceTiers :=
  resolver_agreement 5 kh1390_50w.priceTiers
    { min := 1, max := some 9, price := 10000 }
    (by decide) (by decide) (by decide)

/-- C10: for every quantity argument, `calculatePriceByTier` returns 0 when
the tier-list argument is not an array (`none`) or is the empty array,
instead of failing. -/
theorem resolver_invalid_tiers (q : Option Int) :
    calculatePriceByTier q none = 0 ∧ calculatePriceByTier q (some []) = 0 :=
  ⟨rfl, rfl⟩

end Quotation

